import Mathlib

/-!
Shallow embedding of the `mkv-slide-show` crate of the vid-from-pdf
repository: the Matroska/WebM muxer state machine (`src/encoder.rs`), the
paged output buffer (`src/paged_vec.rs`) and the driving collaborator
(`src/main.rs`).

Modelling conventions:
* `f32`/`f64` arithmetic is modelled by exact rational arithmetic (`ℚ`).
  Counterexamples below only use dyadic rationals or values whose
  floor/round classification has a large margin, where binary floating
  point and exact arithmetic agree.
* The third-party `WebmWriter` EBML serializer is an external primitive
  (spec §2); the output buffer is therefore modelled at the granularity of
  the written Matroska elements (`Elem`), in exact write order.
* File and decoder I/O is modelled by an environment `Env` of pure
  functions from (abstract) paths to decode outcomes; this reflects that
  the file system is not mutated during a muxing run.
* Rust panic paths (`unreachable!` for empty WAV data, `unimplemented!`
  for 24-bit samples, out-of-bounds slide indexing) are outside the
  claims; the model restricts `WavData` to the non-panicking variants and
  uses `List.getD` with a default for indexing, which is never reached
  from the states the theorems quantify over.
-/

namespace VidFromPdf

abbrev Path := Nat
abbrev Bytes := List Nat

/-- `Slide` (src/main.rs): image/audio path and display duration; the
`subtitles` and `chapter` fields are carried by the source data model but
never read by the encoder, so they are omitted here. -/
structure Slide where
  image : Path
  audio : Path
  seconds : ℚ
deriving DecidableEq

instance : Inhabited Slide := ⟨⟨0, 0, 0⟩⟩

/-- `Master::Start` / `Master::End` of webm_iterable. -/
inductive MasterEvt
  | start
  | stop
deriving DecidableEq

/-- One written Matroska element, mirroring the `MatroskaSpec` (and
`missing_specs.rs` extension) variants that `encoder.rs` writes. -/
inductive Elem
  | ebml (m : MasterEvt)
  | ebmlVersion (n : ℕ)
  | ebmlReadVersion (n : ℕ)
  | ebmlMaxIdLength (n : ℕ)
  | ebmlMaxSizeLength (n : ℕ)
  | ebmlDocType (s : String)
  | ebmlDocTypeVersion (n : ℕ)
  | ebmlDocTypeReadVersion (n : ℕ)
  | segment (m : MasterEvt)
  | info (m : MasterEvt)
  | timecodeScale (n : ℕ)
  | muxingApp (s : String)
  | writingApp (s : String)
  | duration (q : ℚ)
  | tracks (m : MasterEvt)
  | trackEntry (m : MasterEvt)
  | trackNumber (n : ℕ)
  | trackUid (n : ℕ)
  | trackType (n : ℕ)
  | flagEnabled (n : ℕ)
  | flagDefault (n : ℕ)
  | flagForced (n : ℕ)
  | flagLacing (n : ℕ)
  | codecId (s : String)
  | codecDecodeAll (n : ℕ)
  | seekPreRoll (n : ℕ)
  | defaultDuration (n : ℕ)
  | videoMaster (m : MasterEvt)
  | flagInterlaced (n : ℕ)
  | pixelWidth (n : ℕ)
  | pixelHeight (n : ℕ)
  | colourSpace (b : Bytes)
  | colorMaster (m : MasterEvt)
  | bitsPerChannel (n : ℕ)
  | transferCharacteristics (n : ℕ)
  | primaries (n : ℕ)
  | audioMaster (m : MasterEvt)
  | samplingFrequency (q : ℚ)
  | channels (n : ℕ)
  | bitDepth (n : ℕ)
  | cluster (m : MasterEvt)
  | timecode (n : ℕ)
  | blockGroup (m : MasterEvt)
  | rawBlock (id : ℕ) (data : Bytes)
  | blockDuration (n : ℕ)
  | cues (m : MasterEvt)
deriving DecidableEq

/-- `ErrorKind` (src/encoder.rs); error payloads (the wrapped image/wav
library errors) are dropped. -/
inductive EncErrorKind
  | image
  | wav
  | mismatchingDimensions
  | emptySequence
deriving DecidableEq

/-- Result of one `step()`: the two-tier
`Result<Result<(), Error>, io::Error>`, payloads of the fatal channel
dropped. -/
inductive StepResult
  | fatal
  | domain (e : EncErrorKind)
  | ok
deriving DecidableEq

/-- Two-tier outcome of an internal encode helper carrying data on
success. -/
inductive EncodeOut (α : Type)
  | fatal
  | domain (e : EncErrorKind)
  | ok (a : α)
deriving DecidableEq

/-- A decoded image, as handed over by the third-party `image` crate:
dimensions plus the RGBA8 byte payload (`to_rgba8().as_bytes()`). -/
structure Image where
  width : ℕ
  height : ℕ
  rgba : Bytes
deriving DecidableEq

inductive ImageOutcome
  | ioError
  | decodeError
  | ok (img : Image)
deriving DecidableEq

/-- `wav::BitDepth` restricted to the variants the encoder supports
without panicking (`Empty` hits `unreachable!`, `TwentyFour` hits
`unimplemented!` in `pcm_chunk`).  16-bit samples are represented by
their two native-order bytes, 32-bit float samples by their four
native-order bytes, exactly what `bytemuck::cast_slice` exposes. -/
inductive WavData
  | eight (d : List ℕ)
  | sixteen (d : List (ℕ × ℕ))
  | thirtyTwoFloat (d : List (ℕ × ℕ × ℕ × ℕ))
deriving DecidableEq

inductive AudioOutcome
  | ioError
  | wavError
  | ok (d : WavData)
deriving DecidableEq

/-- Outcome of `ImageReader::into_dimensions` in `basic_show_data`. -/
inductive DimsOutcome
  | ioError
  | decodeError
  | ok (width height : ℕ)
deriving DecidableEq

/-- The fields of `wav::Header` read by `basic_show_data`. -/
structure WavHeader where
  bytes_per_second : ℕ
  bytes_per_sample : ℕ
  channel_count : ℕ
  bits_per_sample : ℕ
deriving DecidableEq

inductive HeaderOutcome
  | ioError
  | wavError
  | ok (h : WavHeader)
deriving DecidableEq

/-- The pure environment standing for the file system and the external
decoders: every decode of the same path yields the same outcome during a
run.  `hash64` stands for `DefaultHasher` (an unspecified 64-bit hash used
only for track UIDs), `isBigEndian` for the host byte order probed by
`to_ne_bytes`. -/
structure Env where
  decodeImage : Path → ImageOutcome
  decodeAudio : Path → AudioOutcome
  imageDims : Path → DimsOutcome
  wavHeader : Path → HeaderOutcome
  hash64 : ℕ → ℕ
  isBigEndian : Bool

/-- `Audio::Pcm` parameters (src/encoder.rs `Audio` / `AudioTrack`). -/
structure AudioParams where
  sampling_frequency : ℕ
  channels : ℕ
  bits_per_sample : ℕ
deriving DecidableEq

/-- `VideoTrack` (src/encoder.rs). -/
structure VideoTrack where
  width : ℕ
  height : ℕ
deriving DecidableEq

inductive Color
  | srgb
deriving DecidableEq

/-- `SlideShow` (src/encoder.rs). -/
structure SlideShow where
  slides : List Slide
  width : ℕ
  height : ℕ
  color : Color
  audio : AudioParams
deriving DecidableEq

/-- `Progress` (src/encoder.rs): the muxer's cursor. -/
inductive Progress
  | initial
  | beforeFrame (idx : ℕ)
  | done
deriving DecidableEq

/-- The full encoder state: `Encoder` plus its `EncoderState` and the
`PagedVec` it writes into (`buf`, at element granularity). -/
structure EncState where
  slides : List Slide
  audio : AudioParams
  video : VideoTrack
  progress : Progress
  passed_time : ℚ
  buf : List Elem
deriving DecidableEq

namespace Encoder

/-- `Encoder::TIMESCALE`. -/
def TIMESCALE : ℕ := 1000000

/-- `Encoder::APP_NAME`. -/
def APP_NAME : String := "VFP-Core-1.0.0"

def TRACK_VIDEO : ℕ := 1
def TRACK_AUDIO : ℕ := 2

end Encoder

/-- `Encoder::time_as_timecode(_f64)`: `secs * 1e9 / TIMESCALE`, rounded
(`f64::round`, half away from zero) and cast `as u64`.  For the
nonnegative results produced here Mathlib's `round` (half up) agrees with
`f64::round`; negative inputs saturate to `0` under `as u64`, matched by
`Int.toNat`. -/
def timeAsTimecode (secs : ℚ) : ℕ :=
  (round (secs * 1000000000 / (Encoder.TIMESCALE : ℚ))).toNat

/-- `Encoder::build_block`: `[num | 0x80, ts_be0, ts_be1, 0x00] ++ data`
(`num < 0x80` asserted in the source; only 1 and 2 occur). -/
def buildBlock (num : ℕ) (ts : ℤ) (data : Bytes) : Bytes :=
  let t : ℕ := (ts % 65536).toNat
  (num ||| 128) :: t / 256 :: t % 256 :: 0 :: data

/-- `Encoder::build_frame_block`: the RGBA8 bytes of the decoded frame in
a block for the video track. -/
def buildFrameBlock (num : ℕ) (ts : ℤ) (img : Image) : Bytes :=
  buildBlock num ts img.rgba

/-- `u16::to_be_bytes`. -/
def u16ToBeBytes (n : ℕ) : ℕ × ℕ := ((n / 256) % 256, n % 256)

/-- `u16::to_ne_bytes`, parameterized by the host byte order. -/
def u16ToNeBytes (isBE : Bool) (n : ℕ) : ℕ × ℕ :=
  if isBE then u16ToBeBytes n else (n % 256, (n / 256) % 256)

/-- `AudioTrack::pcm_format`: probes the host byte order by comparing
`1u16.to_be_bytes()` with `1u16.to_ne_bytes()`. -/
def pcmFormat (isBE : Bool) : String :=
  if u16ToBeBytes 1 = u16ToNeBytes isBE 1 then "A_PCM/INT/BIG"
  else "A_PCM/INT/LIT"

/-- `AudioTrack::float_format` (never called by the encoder). -/
def floatFormat : String := "A_PCM/FLOAT/IEEE"

/-- `u32::from_ne_bytes` on a 4-byte group, parameterized by host order. -/
def u32FromNeBytes (isBE : Bool) : ℕ × ℕ × ℕ × ℕ → ℕ :=
  fun (b0, b1, b2, b3) =>
    if isBE then ((b0 * 256 + b1) * 256 + b2) * 256 + b3
    else ((b3 * 256 + b2) * 256 + b1) * 256 + b0

/-- `u32::to_ne_bytes`, parameterized by host order. -/
def u32ToNeBytes (isBE : Bool) (n : ℕ) : ℕ × ℕ × ℕ × ℕ :=
  if isBE then ((n / 16777216) % 256, (n / 65536) % 256, (n / 256) % 256, n % 256)
  else (n % 256, (n / 256) % 256, (n / 65536) % 256, (n / 16777216) % 256)

/-- `u32::to_le_bytes`: the canonical little-endian form the source
comment says the float samples MUST be in. -/
def u32ToLeBytes (n : ℕ) : ℕ × ℕ × ℕ × ℕ :=
  (n % 256, (n / 256) % 256, (n / 65536) % 256, (n / 16777216) % 256)

/-- The byte-order transformation applied to each 32-bit float sample in
`AudioTrack::pcm_chunk`: `*val = u32::from_ne_bytes(*val).to_ne_bytes()`. -/
def floatForceOrder (isBE : Bool) (b : ℕ × ℕ × ℕ × ℕ) : ℕ × ℕ × ℕ × ℕ :=
  u32ToNeBytes isBE (u32FromNeBytes isBE b)

/-- `slice::chunks` with a fuel argument for structural recursion; the
fuel is instantiated with the list length, which always suffices for a
positive chunk size (`chunkList_zero_lt` below). -/
def chunkListGo (n : ℕ) : ℕ → List α → List (List α)
  | _, [] => []
  | 0, l => [l]
  | fuel + 1, l => l.take n :: chunkListGo n fuel (l.drop n)

/-- `slice::chunks n` (n > 0 wherever reached: `chunks(0)` panics in
Rust). -/
def chunkList (n : ℕ) (l : List α) : List (List α) :=
  chunkListGo n l.length l

/-- Model of `paged_vec.rs`: the buffer contents as plain bytes.
`PagedVec::ready` borrows the whole unconsumed vector. -/
def pagedReady (v : Bytes) : Bytes := v

/-- `PagedVec::consume`: `splice(..len, empty)` removes the first `len`
bytes (panics for `len > v.len()` in Rust, a case the claims exclude). -/
def pagedConsume (v : Bytes) (len : ℕ) : Bytes := v.drop len

/-- One chunk of PCM data (`PcmSlice`): offset in scaled ticks plus the
raw block payload bytes. -/
structure PcmSlice where
  offset : ℕ
  data : Bytes
deriving DecidableEq

instance : Inhabited PcmSlice := ⟨⟨0, []⟩⟩

/-- The chunk length divisor: `chunk_len_ms = 33`,
`count = sampling_frequency / 33` (u32 integer division). -/
def chunkCount (freq : ℕ) : ℕ := freq / 33

/-- The tick offset computed in the `scan` closure of
`AudioTrack::pcm_chunk`: `secs = num / freq` (f64), then
`secs * 1e9 / TIMESCALE`, then `as u64` — a truncating cast, not a
rounding one. -/
def chunkOffsetTicks (freq : ℕ) (num : ℕ) : ℕ :=
  (⌊((num : ℚ) / (freq : ℚ)) * 1000000000 / (Encoder.TIMESCALE : ℚ)⌋).toNat

/-- Flatten a 16-bit sample (native-order byte pair) into bytes, as
`bytemuck::cast_slice` does. -/
def bytesOfPair (p : ℕ × ℕ) : Bytes := [p.1, p.2]

/-- Flatten a 32-bit sample (native-order byte quadruple) into bytes. -/
def bytesOfQuad (q : ℕ × ℕ × ℕ × ℕ) : Bytes := [q.1, q.2.1, q.2.2.1, q.2.2.2]

/-- `AudioTrack::pcm_chunk`: split the decoded samples into chunks of
`count` samples, flatten each chunk to its raw (native-order) bytes, and
pair chunk `k` with the tick offset of its first sample `k * count`.
The 32-bit float branch first maps every sample through
`u32::from_ne_bytes` / `to_ne_bytes` (see `floatForceOrder`). -/
def pcmChunks (isBE : Bool) (freq : ℕ) (data : WavData) : List PcmSlice :=
  let count := chunkCount freq
  let chunks : List Bytes :=
    match data with
    | .eight d => chunkList count d
    | .sixteen d => (chunkList count d).map (fun c => (c.map bytesOfPair).flatten)
    | .thirtyTwoFloat d =>
        let d := d.map (floatForceOrder isBE)
        (chunkList count d).map (fun c => (c.map bytesOfQuad).flatten)
  chunks.enum.map fun kc =>
    { offset := chunkOffsetTicks freq (kc.1 * count), data := kc.2 }

/-- `Encoder::encode_info`: EBML header and Segment/Info.  The `Duration`
element is written as `f64(total) * 1e9 / f64(TIMESCALE)` with no
rounding (`MatroskaSpec::Duration` is a float element). -/
def encodeInfo (slides : List Slide) : List Elem :=
  let total : ℚ := slides.foldl (fun ts sl => ts + sl.seconds) 0
  let total_ns : ℚ := total * 1000000000 / (Encoder.TIMESCALE : ℚ)
  [.ebml .start, .ebmlVersion 1, .ebmlReadVersion 1, .ebmlMaxIdLength 4,
   .ebmlMaxSizeLength 8, .ebmlDocType "webm", .ebmlDocTypeVersion 4,
   .ebmlDocTypeReadVersion 2, .ebml .stop,
   .segment .start, .info .start, .timecodeScale Encoder.TIMESCALE,
   .muxingApp Encoder.APP_NAME, .writingApp Encoder.APP_NAME,
   .duration total_ns, .info .stop]

/-- `VideoTrack::encode`. -/
def videoTrackElems (v : VideoTrack) : List Elem :=
  [.videoMaster .start, .flagInterlaced 2, .pixelWidth v.width,
   .pixelHeight v.height, .colourSpace [0x52, 0x47, 0x42, 0x41],
   .colorMaster .start, .bitsPerChannel 8, .transferCharacteristics 13,
   .primaries 1, .colorMaster .stop, .videoMaster .stop]

/-- `AudioTrack::encode`. -/
def audioTrackElems (a : AudioParams) : List Elem :=
  [.audioMaster .start, .samplingFrequency (a.sampling_frequency : ℚ),
   .channels a.channels, .bitDepth a.bits_per_sample, .audioMaster .stop]

/-- `Encoder::encode_tracks`: the video track entry, then the audio track
entry; audio codec id from `pcm_format` (host byte order), track UIDs
from `mk_track_uid` (`DefaultHasher`, uninterpreted `Env.hash64`). -/
def encodeTracks (env : Env) (a : AudioParams) (v : VideoTrack) : List Elem :=
  [.tracks .start,
   .trackEntry .start, .trackNumber Encoder.TRACK_VIDEO,
   .trackUid (env.hash64 Encoder.TRACK_VIDEO), .trackType 1,
   .flagEnabled 1, .flagDefault 1, .flagForced 0, .flagLacing 0,
   .codecId "V_UNCOMPRESSED", .codecDecodeAll 0, .seekPreRoll 0,
   .defaultDuration 1000000000]
  ++ videoTrackElems v ++
  [.trackEntry .stop,
   .trackEntry .start, .trackNumber Encoder.TRACK_AUDIO,
   .trackUid (env.hash64 Encoder.TRACK_AUDIO), .trackType 2,
   .flagEnabled 1, .flagDefault 1, .flagForced 0, .flagLacing 0,
   .codecId (pcmFormat env.isBigEndian), .codecDecodeAll 0, .seekPreRoll 0,
   .defaultDuration 1000000000]
  ++ audioTrackElems a ++
  [.trackEntry .stop, .tracks .stop]

/-- `Encoder::encode_chapters`: a FIXME no-op in the source. -/
def encodeChapters : List Elem := []

/-- `Encoder::encode_cluster_end`: empty Cues, then Segment close. -/
def encodeClusterEnd : List Elem :=
  [.cues .start, .cues .stop, .segment .stop]

/-- `Encoder::encode_frame_with_duration`: open and decode the slide's
image (I/O failure fatal, other decode failure a domain error), check its
dimensions against the configured video size, then emit one Cluster with
the frame block and its `BlockDuration`. -/
def encodeFrameWithDuration (env : Env) (slides : List Slide)
    (video : VideoTrack) (passed_time : ℚ) (idx : ℕ) (duration : Option ℚ) :
    EncodeOut (List Elem) :=
  let frame := slides.getD idx default
  match env.decodeImage frame.image with
  | .ioError => .fatal
  | .decodeError => .domain .image
  | .ok img =>
    if (img.width, img.height) ≠ (video.width, video.height) then
      .domain .mismatchingDimensions
    else
      let data := buildFrameBlock Encoder.TRACK_VIDEO 0 img
      let dur := duration.getD frame.seconds
      .ok [.cluster .start, .timecode (timeAsTimecode passed_time),
           .blockGroup .start, .rawBlock 0xa1 data,
           .blockDuration (timeAsTimecode dur),
           .blockGroup .stop, .cluster .stop]

/-- `Encoder::encode_audio_chunks`: open and decode the slide's WAV file
(I/O failure fatal, WAV decode failure a domain error), then emit one
Cluster per PCM chunk whose absolute timecode is the slide's base
timecode plus the chunk offset. -/
def encodeAudioChunks (env : Env) (audio : AudioParams)
    (slides : List Slide) (passed_time : ℚ) (idx : ℕ) :
    EncodeOut (List Elem) :=
  let frame := slides.getD idx default
  match env.decodeAudio frame.audio with
  | .ioError => .fatal
  | .wavError => .domain .wav
  | .ok data =>
    .ok ((pcmChunks env.isBigEndian audio.sampling_frequency data).flatMap
      fun pcm =>
        [.cluster .start,
         .timecode (timeAsTimecode passed_time + pcm.offset),
         .blockGroup .start,
         .rawBlock 0xa1 (buildBlock Encoder.TRACK_AUDIO 0 pcm.data),
         .blockGroup .stop, .cluster .stop])

/-- The do-while loop inside `Encoder::step` that splits a slide's
duration into sub-blocks of at most one second, with a fuel argument for
structural recursion (`videoFuel` below always suffices: the loop only
continues while `passed + length + 0.1 < seconds` with `length = 1`).
Returns the elements written, the updated `passed_time`, and the loop's
result. -/
def videoLoop (env : Env) (slides : List Slide) (video : VideoTrack)
    (idx : ℕ) (seconds : ℚ) :
    ℕ → ℚ → ℚ → List Elem × ℚ × StepResult
  | 0, _, pt => ([], pt, .ok)
  | fuel + 1, passed, pt =>
    let length := min (seconds - passed) 1
    match encodeFrameWithDuration env slides video pt idx (some length) with
    | .fatal => ([], pt, .fatal)
    | .domain e => ([], pt, .domain e)
    | .ok delta =>
      if passed + length + 1/10 < seconds then
        match videoLoop env slides video idx seconds fuel
            (passed + length) (pt + length) with
        | (d2, pt2, r) => (delta ++ d2, pt2, r)
      else (delta, pt + length, .ok)

/-- Fuel bound for `videoLoop`: the loop continues only while
`passed + 1.1 < seconds` with `passed` advancing by `1` from `0`. -/
def videoFuel (seconds : ℚ) : ℕ := (⌈seconds⌉).toNat + 2

/-- `Encoder::step` (src/encoder.rs lines 140–192). -/
def step (env : Env) (s : EncState) : EncState × StepResult :=
  match s.progress with
  | .done => (s, .ok)
  | .initial =>
    ({ s with
        buf := s.buf ++ encodeInfo s.slides
          ++ encodeTracks env s.audio s.video ++ encodeChapters,
        progress := .beforeFrame 0 }, .ok)
  | .beforeFrame frame =>
    let seconds := (s.slides.getD frame default).seconds
    let pastframe := s.passed_time + seconds
    match encodeAudioChunks env s.audio s.slides s.passed_time frame with
    | .fatal => (s, .fatal)
    | .domain e => (s, .domain e)
    | .ok audioDelta =>
      let s1 := { s with buf := s.buf ++ audioDelta }
      match videoLoop env s.slides s.video frame seconds
          (videoFuel seconds) 0 s1.passed_time with
      | (delta, pt, .fatal) =>
        ({ s1 with buf := s1.buf ++ delta, passed_time := pt }, .fatal)
      | (delta, pt, .domain e) =>
        ({ s1 with buf := s1.buf ++ delta, passed_time := pt }, .domain e)
      | (delta, _, .ok) =>
        let s2 := { s1 with buf := s1.buf ++ delta,
                            passed_time := pastframe + 1/10 }
        if frame + 1 = s.slides.length then
          -- `let _ = self.encode_frame_with_duration(frame, Some(0.0))?;`
          -- propagates the fatal channel but discards a domain error.
          match encodeFrameWithDuration env s.slides s.video
              s2.passed_time frame (some 0) with
          | .fatal => (s2, .fatal)
          | .domain _ =>
            ({ s2 with buf := s2.buf ++ encodeClusterEnd,
                       progress := .done }, .ok)
          | .ok extra =>
            ({ s2 with buf := s2.buf ++ extra ++ encodeClusterEnd,
                       progress := .done }, .ok)
        else
          ({ s2 with progress := .beforeFrame (frame + 1) }, .ok)

/-- `Encoder::new`: initial state over a fresh (empty) paged buffer. -/
def Encoder.new (sh : SlideShow) : EncState :=
  { slides := sh.slides
    audio := { sampling_frequency := sh.audio.sampling_frequency,
               channels := sh.audio.channels,
               bits_per_sample := sh.audio.bits_per_sample }
    video := { width := sh.width, height := sh.height }
    progress := .initial
    passed_time := 0
    buf := [] }

/-- `Encoder::done`. -/
def EncState.done (s : EncState) : Bool :=
  match s.progress with
  | .done => true
  | _ => false

/-- `k` iterated `step` calls (the state after the `k`-th call). -/
def stepN (env : Env) (s : EncState) : ℕ → EncState
  | 0 => s
  | k + 1 => (step env (stepN env s k)).1

/-- `Config` (src/main.rs); the advisory `memory` capacity hint does not
affect buffer behaviour (a `Vec` capacity) and is carried unused. -/
structure Config where
  target : Path
  slides : List Slide
  memory : ℕ
deriving DecidableEq

/-- Observable file-system effects of the driver `assemble_file`. -/
inductive Event
  | readImageDims (p : Path)
  | readWavHeader (p : Path)
  | createDest (p : Path)
  | writeChunk (n : ℕ)
deriving DecidableEq

inductive AssembleResult
  | fatal
  | domain (e : EncErrorKind)
  | ok (length : ℕ)
  | outOfFuel
deriving DecidableEq

/-- `basic_show_data` (src/main.rs): derive the slideshow metadata from
the first slide — image dimensions via `into_dimensions`, audio
parameters from the WAV header, `sps = bytes_per_second /
u32::from(bytes_per_sample)` (integer division). -/
def basicShowData (env : Env) (slide : Slide) :
    List Event × EncodeOut SlideShow :=
  match env.imageDims slide.image with
  | .ioError => ([.readImageDims slide.image], .fatal)
  | .decodeError => ([.readImageDims slide.image], .domain .image)
  | .ok w h =>
    match env.wavHeader slide.audio with
    | .ioError =>
      ([.readImageDims slide.image, .readWavHeader slide.audio], .fatal)
    | .wavError =>
      ([.readImageDims slide.image, .readWavHeader slide.audio],
       .domain .wav)
    | .ok hdr =>
      let sps := hdr.bytes_per_second / hdr.bytes_per_sample
      ([.readImageDims slide.image, .readWavHeader slide.audio],
       .ok { slides := [], width := w, height := h, color := .srgb,
             audio := { sampling_frequency := sps,
                        channels := hdr.channel_count,
                        bits_per_sample := hdr.bits_per_sample } })

/-- The driver loop of `assemble_file`:
`while !done { step()?; write(ready()); consume(len) }` then one tail
flush.  Fuel-indexed for structural recursion; `slides.length + 2`
iterations always suffice (each successful step advances `Progress`). -/
def driveLoop (env : Env) : ℕ → EncState → ℕ → List Event × AssembleResult
  | 0, _, _ => ([], .outOfFuel)
  | fuel + 1, s, len =>
    if s.done then
      ([.writeChunk s.buf.length], .ok (len + s.buf.length))
    else
      match step env s with
      | (_, .fatal) => ([], .fatal)
      | (_, .domain e) => ([], .domain e)
      | (s', .ok) =>
        let page := s'.buf.length
        match driveLoop env fuel { s' with buf := [] } (len + page) with
        | (evs, r) => (.writeChunk page :: evs, r)

/-- `assemble_file` (src/main.rs): reject an empty slide list with
`EmptySequence` before anything is read, opened or created; otherwise
derive metadata from the first slide, create the destination file
(`create_new`), and run the encoder loop. -/
def assembleFile (env : Env) (config : Config) :
    List Event × AssembleResult :=
  match config.slides with
  | [] => ([], .domain .emptySequence)
  | first :: _ =>
    match basicShowData env first with
    | (evs, .fatal) => (evs, .fatal)
    | (evs, .domain e) => (evs, .domain e)
    | (evs, .ok sh0) =>
      let sh := { sh0 with slides := config.slides }
      let s0 := Encoder.new sh
      match driveLoop env (config.slides.length + 2) s0 0 with
      | (evs2, r) => (evs ++ [.createDest config.target] ++ evs2, r)

/-- A concrete environment for witnesses: every image decodes to a 1×1
RGBA frame, every audio file to three 8-bit samples at 33 Hz. -/
def envW : Env :=
  { decodeImage := fun _ => .ok ⟨1, 1, [9, 8, 7, 6]⟩
    decodeAudio := fun _ => .ok (.eight [5, 4, 3])
    imageDims := fun _ => .ok 1 1
    wavHeader := fun _ => .ok ⟨33, 1, 1, 8⟩
    hash64 := fun n => n
    isBigEndian := false }

/-- A one-slide show (slide duration 1 s) matching `envW`. -/
def shW : SlideShow :=
  { slides := [⟨0, 1, 1⟩], width := 1, height := 1, color := .srgb,
    audio := ⟨33, 1, 8⟩ }

/-- Extract the values of all `Duration` elements from a written stream. -/
def infoDurations (l : List Elem) : List ℚ :=
  l.filterMap fun e =>
    match e with
    | .duration q => some q
    | _ => none

/-- Extract a Cluster `Timecode` value. -/
def elemTimecode (e : Elem) : Option ℕ :=
  match e with
  | .timecode n => some n
  | _ => none

/-- The Cluster timecodes of a successful `encode_audio_chunks` call. -/
def audioTimecodes (r : EncodeOut (List Elem)) : List ℕ :=
  match r with
  | .ok l => l.filterMap elemTimecode
  | _ => []

/-- A one-slide show whose duration `2⁻¹¹ s` is exactly representable in
`f32`/`f64`, so exact rational arithmetic and the source's float
arithmetic coincide on it. -/
def shC4 : SlideShow :=
  { slides := [⟨0, 1, 1/2048⟩], width := 1, height := 1, color := .srgb,
    audio := ⟨33, 1, 8⟩ }

/-- A variant of `envW` whose WAV decoding fails with a (recoverable)
format error. -/
def envC2 : Env := { envW with decodeAudio := fun _ => .wavError }

/-- A concrete muxer state at the first slide, as produced by the header
step. -/
def sC2 : EncState :=
  { slides := [⟨0, 1, 1⟩], audio := ⟨33, 1, 8⟩, video := ⟨1, 1⟩,
    progress := .beforeFrame 0, passed_time := 0, buf := [] }

/-- A two-slide show (1 s each) matching `envW`. -/
def sh2 : SlideShow :=
  { slides := [⟨0, 1, 1⟩, ⟨2, 3, 1⟩], width := 1, height := 1,
    color := .srgb, audio := ⟨33, 1, 8⟩ }

/-- The audio-cluster elements emitted for the slide of `sC2` under the
`envW` audio decoding. -/
def adW : List Elem :=
  match encodeAudioChunks envW ⟨33, 1, 8⟩ [⟨0, 1, 1⟩] 0 0 with
  | .ok l => l
  | _ => []

/-- A variant of `envW` whose images decode to 2×2 frames, mismatching
the configured 1×1 video size. -/
def envC10 : Env :=
  { envW with decodeImage := fun _ => .ok ⟨2, 2, List.replicate 16 0⟩ }

/-- All slides of the show decode successfully: images at the configured
size, audio without error. -/
def goodEnv (env : Env) (sh : SlideShow) : Prop :=
  ∀ sl ∈ sh.slides,
    (∃ img, env.decodeImage sl.image = .ok img ∧
      img.width = sh.width ∧ img.height = sh.height) ∧
    (∃ d, env.decodeAudio sl.audio = .ok d)

example : chunkList 2 [1, 2, 3, 4, 5] = [[1, 2], [3, 4], [5]] := by decide
example : pcmFormat true = "A_PCM/INT/BIG" := by decide
example : pcmFormat false = "A_PCM/INT/LIT" := by decide
example : timeAsTimecode 1 = 1000 := by with_unfolding_all decide
example : timeAsTimecode (1/2000) = 1 := by with_unfolding_all decide
example : (stepN envW (Encoder.new shW) 1).done = false := by
  with_unfolding_all decide
example : (stepN envW (Encoder.new shW) 2).done = true := by
  with_unfolding_all decide
example : (stepN envW (Encoder.new shW) 2).passed_time = 11/10 := by
  with_unfolding_all decide

/-- `C8`: `consume(0)` leaves the buffer unchanged, and for `k` at most
the `ready()` length, `consume(k)` followed by `ready()` yields the
previous view minus its first `k` bytes (so of length `previous - k`). -/
theorem c8_paged_consume_spec (v : Bytes) (k : ℕ)
    (hk : k ≤ (pagedReady v).length) :
    pagedConsume v 0 = v ∧
    (pagedReady (pagedConsume v k)).length = (pagedReady v).length - k ∧
    pagedReady (pagedConsume v k) = (pagedReady v).drop k := by
  refine ⟨List.drop_zero v, ?_, rfl⟩
  simp [pagedReady, pagedConsume]

/-- Witness for `c8_paged_consume_spec` at `v = [1,2,3]`, `k = 2`. -/
theorem c8_paged_consume_spec_witness :
    pagedConsume [1, 2, 3] 0 = [1, 2, 3] ∧
    (pagedReady (pagedConsume [1, 2, 3] 2)).length =
      (pagedReady [1, 2, 3]).length - 2 ∧
    pagedReady (pagedConsume [1, 2, 3] 2) = (pagedReady [1, 2, 3]).drop 2 :=
  c8_paged_consume_spec [1, 2, 3] 2 (by decide)

/-- `C9`: an empty slide list makes `assemble_file` return the
`EmptySequence` domain error before anything is read or encoded, and in
particular no destination file is ever created or opened. -/
theorem c9_empty_sequence_rejected (env : Env) (config : Config)
    (h : config.slides = []) :
    assembleFile env config = ([], .domain .emptySequence) ∧
    ∀ p, Event.createDest p ∉ (assembleFile env config).1 := by
  have : assembleFile env config = ([], .domain .emptySequence) := by
    rcases config with ⟨t, slides, m⟩
    simp only at h
    subst h
    rfl
  refine ⟨this, fun p => ?_⟩
  rw [this]
  simp

/-- Witness for `c9_empty_sequence_rejected`. -/
theorem c9_empty_sequence_rejected_witness :
    assembleFile envW ⟨7, [], 1000000⟩ = ([], .domain .emptySequence) ∧
    ∀ p, Event.createDest p ∉ (assembleFile envW ⟨7, [], 1000000⟩).1 :=
  c9_empty_sequence_rejected envW ⟨7, [], 1000000⟩ rfl

/-- `C4` counterexample: the `Duration` written into Info by the first
`step` is the unrounded value `(1/2048)·1e9/1e6 = 125/256` of a tick,
not the claimed `round(Σ seconds × 1e9 / 1_000_000)` (which is `0`). -/
theorem c4_duration_not_rounded :
    infoDurations (step envW (Encoder.new shC4)).1.buf = [125/256] ∧
    ((125/256 : ℚ)) ≠
      ((round ((1/2048 : ℚ) * 1000000000 / 1000000) : ℤ) : ℚ) := by
  constructor
  · with_unfolding_all decide
  · with_unfolding_all decide

/-- `C4` amended: the `Duration` element written into Segment Info by the
first `step` equals `Σ slide.seconds × 1e9 / TimecodeScale` exactly as a
float value, without rounding to an integer tick count; it is computed
from the slide list alone, before and independent of any sub-block
splitting. -/
theorem c4_duration_formula (env : Env) (sh : SlideShow) :
    infoDurations (step env (Encoder.new sh)).1.buf =
      [(sh.slides.foldl (fun ts sl => ts + sl.seconds) 0) *
        1000000000 / (Encoder.TIMESCALE : ℚ)] := by
  simp [step, Encoder.new, encodeInfo, encodeTracks, encodeChapters,
    videoTrackElems, audioTrackElems, infoDurations]

/-- `C5` (code bug): the transformation applied to each 32-bit float
sample, `u32::from_ne_bytes(*val).to_ne_bytes()`, is the identity on
valid bytes — on a big-endian host the emitted sample bytes stay in
big-endian order instead of the little-endian order the source comment
("We MUST use little endian here") and the spec require.  The 16-bit
codec string does declare the host byte order. -/
theorem c5_float_samples_not_forced_le (b0 b1 b2 b3 : ℕ)
    (h0 : b0 < 256) (h1 : b1 < 256) (h2 : b2 < 256) (h3 : b3 < 256) :
    (∀ isBE, floatForceOrder isBE (b0, b1, b2, b3) = (b0, b1, b2, b3)) ∧
    (pcmChunks true 33 (.thirtyTwoFloat [(63, 128, 0, 0)])).map
      (fun p => p.data) = [[63, 128, 0, 0]] ∧
    u32ToLeBytes (u32FromNeBytes true (63, 128, 0, 0)) = (0, 0, 128, 63) ∧
    ((63, 128, 0, 0) : ℕ × ℕ × ℕ × ℕ) ≠ (0, 0, 128, 63) ∧
    pcmFormat true = "A_PCM/INT/BIG" ∧ pcmFormat false = "A_PCM/INT/LIT" := by
  refine ⟨?_, by decide, by decide, by decide, by decide, by decide⟩
  intro isBE
  cases isBE <;>
    simp [floatForceOrder, u32FromNeBytes, u32ToNeBytes] <;> omega

/-- Witness for `c5_float_samples_not_forced_le` at the big-endian byte
pattern of `1.0f32`. -/
theorem c5_float_samples_not_forced_le_witness :
    (∀ isBE, floatForceOrder isBE (63, 128, 0, 0) = (63, 128, 0, 0)) ∧
    (pcmChunks true 33 (.thirtyTwoFloat [(63, 128, 0, 0)])).map
      (fun p => p.data) = [[63, 128, 0, 0]] ∧
    u32ToLeBytes (u32FromNeBytes true (63, 128, 0, 0)) = (0, 0, 128, 63) ∧
    ((63, 128, 0, 0) : ℕ × ℕ × ℕ × ℕ) ≠ (0, 0, 128, 63) ∧
    pcmFormat true = "A_PCM/INT/BIG" ∧ pcmFormat false = "A_PCM/INT/LIT" :=
  c5_float_samples_not_forced_le 63 128 0 0
    (by decide) (by decide) (by decide) (by decide)

/-- The element list emitted for one frame when the image decodes with
the configured dimensions. -/
lemma encodeFrameWithDuration_ok {env : Env} {slides : List Slide}
    {video : VideoTrack} {pt : ℚ} {idx : ℕ} {dur : Option ℚ} {img : Image}
    (himg : env.decodeImage ((slides.getD idx default).image) = .ok img)
    (hw : img.width = video.width) (hh : img.height = video.height) :
    encodeFrameWithDuration env slides video pt idx dur =
      .ok [.cluster .start, .timecode (timeAsTimecode pt),
           .blockGroup .start,
           .rawBlock 0xa1 (buildFrameBlock Encoder.TRACK_VIDEO 0 img),
           .blockDuration (timeAsTimecode
             (dur.getD (slides.getD idx default).seconds)),
           .blockGroup .stop, .cluster .stop] := by
  simp only [encodeFrameWithDuration]
  rw [himg]
  simp [hw, hh]

/-- A successful frame encode implies the image decoded with the
configured dimensions. -/
lemma encodeFrameWithDuration_ok_inv {env : Env} {slides : List Slide}
    {video : VideoTrack} {pt : ℚ} {idx : ℕ} {dur : Option ℚ}
    {delta : List Elem}
    (h : encodeFrameWithDuration env slides video pt idx dur = .ok delta) :
    ∃ img, env.decodeImage ((slides.getD idx default).image) = .ok img ∧
      img.width = video.width ∧ img.height = video.height := by
  simp only [encodeFrameWithDuration] at h
  cases hi : env.decodeImage ((slides.getD idx default).image) with
  | ioError => rw [hi] at h; simp at h
  | decodeError => rw [hi] at h; simp at h
  | ok img =>
    rw [hi] at h
    simp only at h
    split at h
    · simp at h
    · next hd =>
      rw [not_not] at hd
      exact ⟨img, rfl, congrArg Prod.fst hd, congrArg Prod.snd hd⟩

/-- With an image that decodes at the right size, the per-slide video
loop always terminates with `.ok` (at any fuel). -/
lemma videoLoop_ok {env : Env} {slides : List Slide} {video : VideoTrack}
    {idx : ℕ} {seconds : ℚ} {img : Image}
    (himg : env.decodeImage ((slides.getD idx default).image) = .ok img)
    (hw : img.width = video.width) (hh : img.height = video.height) :
    ∀ fuel passed pt,
      (videoLoop env slides video idx seconds fuel passed pt).2.2 = .ok := by
  intro fuel
  induction fuel with
  | zero => intro passed pt; rfl
  | succ n ih =>
    intro passed pt
    simp only [videoLoop]
    rw [encodeFrameWithDuration_ok himg hw hh]
    dsimp only
    split
    · rcases hv : videoLoop env slides video idx seconds n
          (passed + min (seconds - passed) 1)
          (pt + min (seconds - passed) 1) with ⟨d2, pt2, r2⟩
      have h2 := ih (passed + min (seconds - passed) 1)
        (pt + min (seconds - passed) 1)
      rw [hv] at h2
      simp at h2
      simp [hv, h2]
    · rfl

/-- If the video loop starts on a frame whose first encode yields a
domain error, nothing is emitted and `passed_time` is unchanged. -/
lemma videoLoop_first_domain {env : Env} {slides : List Slide}
    {video : VideoTrack} {idx : ℕ} {seconds passed pt : ℚ}
    {e : EncErrorKind} {fuel : ℕ}
    (hf : encodeFrameWithDuration env slides video pt idx
      (some (min (seconds - passed) 1)) = .domain e) (hfuel : fuel ≠ 0) :
    videoLoop env slides video idx seconds fuel passed pt =
      ([], pt, .domain e) := by
  cases fuel with
  | zero => exact absurd rfl hfuel
  | succ n => simp [videoLoop, hf]

/-- A domain error from the video loop can only arise from the very
first iteration, because re-decoding the same image in the deterministic
environment yields the same result. -/
lemma videoLoop_domain_inv {env : Env} {slides : List Slide}
    {video : VideoTrack} {idx : ℕ} {seconds : ℚ} :
    ∀ {fuel : ℕ} {passed pt : ℚ} {e : EncErrorKind},
      (videoLoop env slides video idx seconds fuel passed pt).2.2 =
        .domain e →
      encodeFrameWithDuration env slides video pt idx
        (some (min (seconds - passed) 1)) = .domain e := by
  intro fuel
  match fuel with
  | 0 =>
    intro passed pt e h
    simp [videoLoop] at h
  | n + 1 =>
    intro passed pt e h
    simp only [videoLoop] at h
    cases hf : encodeFrameWithDuration env slides video pt idx
        (some (min (seconds - passed) 1)) with
    | fatal => rw [hf] at h; simp at h
    | domain e2 =>
      rw [hf] at h
      simp at h
      rw [h]
    | ok delta =>
      rw [hf] at h
      simp only at h
      obtain ⟨img, hi, hwd, hhd⟩ := encodeFrameWithDuration_ok_inv hf
      split at h
      · rcases hv : videoLoop env slides video idx seconds n
            (passed + min (seconds - passed) 1)
            (pt + min (seconds - passed) 1) with ⟨d2, pt2, r2⟩
        rw [hv] at h
        have hok := @videoLoop_ok env slides video idx seconds img
          hi hwd hhd n (passed + min (seconds - passed) 1)
          (pt + min (seconds - passed) 1)
        rw [hv] at hok
        simp at hok
        simp at h
        rw [hok] at h
        cases h
      · simp at h

/-- `step` outcome when the slide's WAV decode fails with a domain
error: state untouched. -/
lemma step_audio_domain {env : Env} {s : EncState} {frame : ℕ}
    {ea : EncErrorKind} (hp : s.progress = .beforeFrame frame)
    (haud : encodeAudioChunks env s.audio s.slides s.passed_time frame =
      .domain ea) :
    step env s = (s, .domain ea) := by
  simp only [step, hp]
  rw [haud]

/-- `step` outcome when the slide's WAV open/decode fails fatally. -/
lemma step_audio_fatal {env : Env} {s : EncState} {frame : ℕ}
    (hp : s.progress = .beforeFrame frame)
    (haud : encodeAudioChunks env s.audio s.slides s.passed_time frame =
      .fatal) :
    step env s = (s, .fatal) := by
  simp only [step, hp]
  rw [haud]

/-- `step` outcome when audio succeeded but the video frame produced a
domain error: the audio clusters stay in the buffer, `Progress` and
`passed_time` are untouched. -/
lemma step_video_domain {env : Env} {s : EncState} {frame : ℕ}
    {ad : List Elem} {e : EncErrorKind}
    (hp : s.progress = .beforeFrame frame)
    (haud : encodeAudioChunks env s.audio s.slides s.passed_time frame =
      .ok ad)
    (hv : videoLoop env s.slides s.video frame
        ((s.slides.getD frame default).seconds)
        (videoFuel ((s.slides.getD frame default).seconds)) 0
        s.passed_time = ([], s.passed_time, .domain e)) :
    step env s = ({ s with buf := s.buf ++ ad }, .domain e) := by
  simp only [step, hp]
  rw [haud]
  dsimp only
  rw [hv]
  simp

/-- When audio succeeded and the video loop reports `.ok`, the step never
returns a domain error (only `.ok`, or `.fatal` from the extra
final-frame encode). -/
lemma step_loop_ok_not_domain {env : Env} {s : EncState} {frame : ℕ}
    {ad : List Elem} {e : EncErrorKind}
    (hp : s.progress = .beforeFrame frame)
    (haud : encodeAudioChunks env s.audio s.slides s.passed_time frame =
      .ok ad)
    (hl : (videoLoop env s.slides s.video frame
        ((s.slides.getD frame default).seconds)
        (videoFuel ((s.slides.getD frame default).seconds)) 0
        s.passed_time).2.2 = .ok) :
    (step env s).2 ≠ .domain e := by
  rcases hv : videoLoop env s.slides s.video frame
      ((s.slides.getD frame default).seconds)
      (videoFuel ((s.slides.getD frame default).seconds)) 0
      s.passed_time with ⟨delta, pt, r⟩
  rw [hv] at hl
  simp at hl
  subst hl
  simp only [step, hp]
  rw [haud]
  dsimp only
  rw [hv]
  dsimp only
  split
  · cases hx : encodeFrameWithDuration env s.slides s.video
        (s.passed_time + (s.slides.getD frame default).seconds + 1/10)
        frame (some 0) with
    | fatal => simp
    | domain e2 => simp
    | ok extra => simp
  · simp

/-- `C2`: a domain error returned from `step()` leaves `Progress` and
`passed_time` unchanged, and calling `step()` again with no other state
change returns the identical error. -/
theorem c2_domain_error_stable (env : Env) (s s' : EncState)
    (e : EncErrorKind) (h : step env s = (s', .domain e)) :
    s'.progress = s.progress ∧ s'.passed_time = s.passed_time ∧
    (step env s').2 = .domain e := by
  cases hp : s.progress with
  | initial => simp [step, hp] at h
  | done => simp [step, hp] at h
  | beforeFrame frame =>
    cases haud : encodeAudioChunks env s.audio s.slides s.passed_time frame with
    | fatal =>
      rw [step_audio_fatal hp haud] at h
      simp at h
    | domain ea =>
      rw [step_audio_domain hp haud] at h
      injection h with h1 h2
      injection h2 with h2
      subst h2
      subst h1
      exact ⟨hp, rfl, by rw [step_audio_domain hp haud]⟩
    | ok ad =>
      cases hr : (videoLoop env s.slides s.video frame
          ((s.slides.getD frame default).seconds)
          (videoFuel ((s.slides.getD frame default).seconds)) 0
          s.passed_time).2.2 with
      | ok =>
        have := @step_loop_ok_not_domain env s frame ad e hp haud hr
        rw [h] at this
        simp at this
      | fatal =>
        rcases hv : videoLoop env s.slides s.video frame
            ((s.slides.getD frame default).seconds)
            (videoFuel ((s.slides.getD frame default).seconds)) 0
            s.passed_time with ⟨delta, pt, r⟩
        rw [hv] at hr
        simp only at hr
        subst hr
        simp only [step, hp, haud, hv] at h
        simp at h
      | domain e2 =>
        have hf := videoLoop_domain_inv hr
        have hv := @videoLoop_first_domain env s.slides s.video frame
          ((s.slides.getD frame default).seconds) 0 s.passed_time e2
          (videoFuel ((s.slides.getD frame default).seconds)) hf
          (by simp [videoFuel])
        rw [step_video_domain hp haud hv] at h
        injection h with h1 h2
        injection h2 with h2
        subst h2
        subst h1
        refine ⟨hp, rfl, ?_⟩
        have hp' : ({ s with buf := s.buf ++ ad } : EncState).progress =
          .beforeFrame frame := hp
        have haud' : encodeAudioChunks env
            ({ s with buf := s.buf ++ ad } : EncState).audio
            ({ s with buf := s.buf ++ ad } : EncState).slides
            ({ s with buf := s.buf ++ ad } : EncState).passed_time frame =
            .ok ad := haud
        have hv' : videoLoop env
            ({ s with buf := s.buf ++ ad } : EncState).slides
            ({ s with buf := s.buf ++ ad } : EncState).video frame
            ((({ s with buf := s.buf ++ ad } : EncState).slides.getD
              frame default).seconds)
            (videoFuel ((({ s with buf := s.buf ++ ad } :
              EncState).slides.getD frame default).seconds)) 0
            ({ s with buf := s.buf ++ ad } : EncState).passed_time =
            ([], ({ s with buf := s.buf ++ ad } : EncState).passed_time,
              .domain e2) := hv
        rw [step_video_domain hp' haud' hv']

set_option maxRecDepth 4000 in
/-- Witness for `c2_domain_error_stable`: a WAV decode failure on the
first slide. -/
theorem c2_domain_error_stable_witness :
    sC2.progress = sC2.progress ∧ sC2.passed_time = sC2.passed_time ∧
      (step envC2 sC2).2 = .domain .wav :=
  c2_domain_error_stable envC2 sC2 sC2 .wav (by with_unfolding_all decide)

/-- `step` from `Initial`: EBML header, Info, Tracks, (empty) Chapters,
then `BeforeFrame(0)`. -/
lemma step_initial {env : Env} {s : EncState}
    (hp : s.progress = .initial) :
    step env s =
      ({ s with
          buf := s.buf ++ encodeInfo s.slides ++
            encodeTracks env s.audio s.video ++ encodeChapters,
          progress := .beforeFrame 0 }, .ok) := by
  simp only [step, hp]

/-- `timeAsTimecode 0 = 0`. -/
lemma timeAsTimecode_zero : timeAsTimecode 0 = 0 := by
  with_unfolding_all decide

/-- A sub-block of at most one second has a `BlockDuration` of at most
1000 ticks. -/
lemma timeAsTimecode_le_1000 {q : ℚ} (h : q ≤ 1) :
    timeAsTimecode q ≤ 1000 := by
  unfold timeAsTimecode Encoder.TIMESCALE
  have h1 : q * 1000000000 / ((1000000 : ℕ) : ℚ) ≤ 1000 := by
    push_cast
    rw [div_le_iff₀ (by norm_num)]
    nlinarith
  have h2 : round (q * 1000000000 / ((1000000 : ℕ) : ℚ)) ≤
      round ((1000 : ℚ)) := by
    rw [round_eq, round_eq]
    exact Int.floor_mono (by linarith)
  have h3 : round ((1000 : ℚ)) = 1000 := by
    exact_mod_cast round_natCast (α := ℚ) 1000
  exact le_trans (Int.toNat_le_toNat (h3 ▸ h2)) (by norm_num)

/-- The full effect of a successful `step` on `BeforeFrame(frame)`. -/
lemma step_success {env : Env} {s : EncState} {frame : ℕ} {img : Image}
    {ad : List Elem}
    (hp : s.progress = .beforeFrame frame)
    (haud : encodeAudioChunks env s.audio s.slides s.passed_time frame =
      .ok ad)
    (himg : env.decodeImage ((s.slides.getD frame default).image) = .ok img)
    (hw : img.width = s.video.width) (hh : img.height = s.video.height) :
    step env s =
      ({ s with
          buf := s.buf ++ ad ++
            (videoLoop env s.slides s.video frame
              ((s.slides.getD frame default).seconds)
              (videoFuel ((s.slides.getD frame default).seconds)) 0
              s.passed_time).1 ++
            (if frame + 1 = s.slides.length then
              [.cluster .start,
               .timecode (timeAsTimecode (s.passed_time +
                 (s.slides.getD frame default).seconds + 1/10)),
               .blockGroup .start,
               .rawBlock 0xa1 (buildFrameBlock Encoder.TRACK_VIDEO 0 img),
               .blockDuration (timeAsTimecode 0),
               .blockGroup .stop, .cluster .stop] ++ encodeClusterEnd
             else []),
          passed_time := s.passed_time +
            (s.slides.getD frame default).seconds + 1/10,
          progress := if frame + 1 = s.slides.length then .done
            else .beforeFrame (frame + 1) }, .ok) := by
  rcases hv : videoLoop env s.slides s.video frame
      ((s.slides.getD frame default).seconds)
      (videoFuel ((s.slides.getD frame default).seconds)) 0
      s.passed_time with ⟨delta, pt, r⟩
  have hok := @videoLoop_ok env s.slides s.video frame
    ((s.slides.getD frame default).seconds) img himg hw hh
    (videoFuel ((s.slides.getD frame default).seconds)) 0 s.passed_time
  rw [hv] at hok
  simp at hok
  subst hok
  simp only [step, hp]
  rw [haud]
  dsimp only
  rw [hv]
  dsimp only
  by_cases hlast : frame + 1 = s.slides.length
  · rw [encodeFrameWithDuration_ok himg hw hh]
    simp [hlast, List.append_assoc, timeAsTimecode_zero]
  · simp [hlast, List.append_assoc]

set_option maxRecDepth 100000 in
/-- `C3` counterexample: after encoding slide 0 (duration 1 s) the
cursor is `1.1`, not `1.0` — `step` adds an extra `0.1 s` after every
slide — and slide 1's first Cluster consequently carries base timecode
1100 instead of the claimed 1000 ticks. -/
theorem c3_passed_time_overshoots :
    (stepN envW (Encoder.new sh2) 2).passed_time = 11/10 ∧
    (stepN envW (Encoder.new sh2) 2).passed_time ≠
      (Encoder.new sh2).passed_time + (1 : ℚ) ∧
    (((stepN envW (Encoder.new sh2) 3).buf.drop
        (stepN envW (Encoder.new sh2) 2).buf.length).filterMap
      elemTimecode).head? = some 1100 ∧
    (1100 : ℕ) ≠ timeAsTimecode 1 := by
  refine ⟨?_, ?_, ?_, ?_⟩ <;> with_unfolding_all decide

/-- `C3` amended: each successful `step` on `BeforeFrame(frame)` advances
`passed_time` by the slide's duration **plus 0.1 s** (so the base
timecode of slide `i`'s clusters corresponds to
`Σ_{j<i} (seconds_j + 0.1)`). -/
theorem c3_amended_passed_time (env : Env) (s : EncState) (frame : ℕ)
    (hp : s.progress = .beforeFrame frame)
    (hok : (step env s).2 = .ok) :
    (step env s).1.passed_time =
      s.passed_time + (s.slides.getD frame default).seconds + 1/10 := by
  cases haud : encodeAudioChunks env s.audio s.slides s.passed_time frame with
  | fatal => rw [step_audio_fatal hp haud] at hok; simp at hok
  | domain ea => rw [step_audio_domain hp haud] at hok; simp at hok
  | ok ad =>
    rcases hv : videoLoop env s.slides s.video frame
        ((s.slides.getD frame default).seconds)
        (videoFuel ((s.slides.getD frame default).seconds)) 0
        s.passed_time with ⟨delta, pt, r⟩
    have hok' := hok
    simp only [step, hp] at hok' ⊢
    rw [haud] at hok' ⊢
    dsimp only at hok' ⊢
    rw [hv] at hok' ⊢
    cases r with
    | fatal => simp at hok'
    | domain e2 => simp at hok'
    | ok =>
      dsimp only at hok' ⊢
      by_cases hlast : frame + 1 = s.slides.length
      · rw [if_pos hlast]
        split <;> rfl
      · rw [if_neg hlast]

set_option maxRecDepth 4000 in
/-- Witness for `c3_amended_passed_time` at the one-slide show. -/
theorem c3_amended_passed_time_witness :
    (step envW sC2).1.passed_time =
      sC2.passed_time + (sC2.slides.getD 0 default).seconds + 1/10 :=
  c3_amended_passed_time envW sC2 0 (by with_unfolding_all decide)
    (by with_unfolding_all decide)

/-- `C6` counterexample: at 33 Hz (chunk size 1 sample), the third audio
chunk starts at sample 2; the code emits tick offset
`trunc(2/33 × 1000) = 60`, while the claimed
`round(2/33 × 1e9 / 1_000_000)` is `61`. -/
theorem c6_offset_truncated_not_rounded :
    audioTimecodes (encodeAudioChunks envW ⟨33, 1, 8⟩ [⟨0, 1, 1⟩] 0 0) =
      [0, 30, 60] ∧
    (round ((2 : ℚ) / 33 * 1000000000 / 1000000)).toNat = 61 ∧
    (60 : ℕ) ≠ 61 := by
  refine ⟨?_, ?_, by decide⟩
  · with_unfolding_all decide
  · with_unfolding_all decide

/-- Mapping a function of the index over `enum` is mapping over `range`. -/
lemma enum_map_index {α β : Type} (l : List α) (f : ℕ → β) :
    l.enum.map (fun kc => f kc.1) = (List.range l.length).map f := by
  have h1 : l.enum.map (fun kc => f kc.1) =
      (l.enum.map Prod.fst).map f := by
    rw [List.map_map]
    rfl
  rw [h1, List.enum_map_fst]

/-- The Cluster timecodes emitted by the audio-chunk loop: one per chunk,
each the base timecode plus the chunk offset. -/
lemma audioDelta_timecodes (chunks : List PcmSlice) (base : ℕ) :
    ((chunks.flatMap fun pcm =>
      [Elem.cluster .start, .timecode (base + pcm.offset),
       .blockGroup .start,
       .rawBlock 0xa1 (buildBlock Encoder.TRACK_AUDIO 0 pcm.data),
       .blockGroup .stop, .cluster .stop]).filterMap elemTimecode) =
    chunks.map (fun pcm => base + pcm.offset) := by
  induction chunks with
  | nil => rfl
  | cons c cs ih => simp [ih, elemTimecode]

/-- The offsets produced by the `enum`-and-tag step of `pcm_chunk`. -/
lemma enumChunks_offset (freq : ℕ) (chunks : List Bytes) :
    ((chunks.enum.map fun kc =>
      ({ offset := chunkOffsetTicks freq (kc.1 * chunkCount freq),
         data := kc.2 } : PcmSlice)).map (fun p => p.offset)) =
      (List.range chunks.length).map
        (fun k => chunkOffsetTicks freq (k * chunkCount freq)) := by
  rw [List.map_map]
  exact @enum_map_index Bytes ℕ chunks
    (fun k => chunkOffsetTicks freq (k * chunkCount freq))

/-- The data payloads produced by the `enum`-and-tag step of
`pcm_chunk`. -/
lemma enumChunks_data (freq : ℕ) (chunks : List Bytes) :
    ((chunks.enum.map fun kc =>
      ({ offset := chunkOffsetTicks freq (kc.1 * chunkCount freq),
         data := kc.2 } : PcmSlice)).map (fun p => p.data)) = chunks := by
  rw [List.map_map]
  have h1 : ((fun p : PcmSlice => p.data) ∘ fun kc : ℕ × Bytes =>
      ({ offset := chunkOffsetTicks freq (kc.1 * chunkCount freq),
         data := kc.2 } : PcmSlice)) = Prod.snd := rfl
  rw [h1, List.enum_map_snd]

/-- The offsets of the PCM chunks are exactly
`trunc((k·count / freq) × 1e9 / TimecodeScale)` for `k = 0, 1, …`. -/
lemma pcmChunks_offset_map (isBE : Bool) (freq : ℕ) (data : WavData) :
    (pcmChunks isBE freq data).map (fun p => p.offset) =
      (List.range (pcmChunks isBE freq data).length).map
        (fun k => chunkOffsetTicks freq (k * chunkCount freq)) := by
  unfold pcmChunks
  dsimp only
  rw [List.length_map, List.enum_length]
  exact enumChunks_offset freq _

/-- The chunk contents are the samples grouped `count` at a time. -/
lemma pcmChunks_eight_data (isBE : Bool) (freq : ℕ) (d : List ℕ) :
    (pcmChunks isBE freq (.eight d)).map (fun p => p.data) =
      chunkList (chunkCount freq) d := by
  unfold pcmChunks
  dsimp only
  exact enumChunks_data freq _

/-- `slice::chunks`: the `k`-th chunk holds the elements from position
`k * n` (for positive `n` and sufficient fuel). -/
lemma chunkListGo_getD {α : Type} (n : ℕ) (hn : 0 < n) :
    ∀ (fuel : ℕ) (l : List α) (k : ℕ), l.length ≤ fuel →
      (chunkListGo n fuel l).getD k [] = (l.drop (k * n)).take n := by
  intro fuel
  induction fuel with
  | zero =>
    intro l k hl
    have : l = [] := List.eq_nil_of_length_eq_zero (Nat.le_zero.mp hl)
    subst this
    simp [chunkListGo]
  | succ m ih =>
    intro l k hl
    cases l with
    | nil => simp [chunkListGo]
    | cons x xs =>
      cases k with
      | zero => simp [chunkListGo]
      | succ j =>
        have hstep : chunkListGo n (m + 1) (x :: xs) =
            (x :: xs).take n :: chunkListGo n m ((x :: xs).drop n) := rfl
        rw [hstep, List.getD_cons_succ]
        rw [ih ((x :: xs).drop n) j (by simp at hl ⊢; omega),
          List.drop_drop]
        simp [Nat.succ_mul, Nat.add_comm]

/-- `slice::chunks` via `chunkList` (fuel instantiated at the length). -/
lemma chunkList_getD {α : Type} (n : ℕ) (hn : 0 < n) (l : List α)
    (k : ℕ) :
    (chunkList n l).getD k [] = (l.drop (k * n)).take n :=
  chunkListGo_getD n hn l.length l k le_rfl

/-- `C6` amended: for a decodable WAV source, the audio Clusters emitted
for a slide carry absolute timecode `slide_base + offset_k` where the
offset of the chunk starting at sample `k · count` is the **truncation**
(not rounding) of `(k · count / sample_rate) × 1e9 / TimecodeScale`; for
8-bit data chunk `k` indeed holds the samples from position `k · count`
on. -/
theorem c6_amended_offsets (env : Env) (audio : AudioParams)
    (slides : List Slide) (pt : ℚ) (idx : ℕ) (data : WavData)
    (h : env.decodeAudio ((slides.getD idx default).audio) = .ok data) :
    audioTimecodes (encodeAudioChunks env audio slides pt idx) =
      (List.range (pcmChunks env.isBigEndian
          audio.sampling_frequency data).length).map
        (fun k => timeAsTimecode pt +
          chunkOffsetTicks audio.sampling_frequency
            (k * chunkCount audio.sampling_frequency)) ∧
    (∀ d : List ℕ, data = .eight d →
      0 < chunkCount audio.sampling_frequency →
      (pcmChunks env.isBigEndian audio.sampling_frequency data).map
          (fun p => p.data) =
        chunkList (chunkCount audio.sampling_frequency) d ∧
      ∀ k, (chunkList (chunkCount audio.sampling_frequency) d).getD k [] =
        (d.drop (k * chunkCount audio.sampling_frequency)).take
          (chunkCount audio.sampling_frequency)) := by
  constructor
  · simp only [encodeAudioChunks]
    rw [h]
    dsimp only [audioTimecodes]
    rw [audioDelta_timecodes]
    have h1 : (pcmChunks env.isBigEndian audio.sampling_frequency data).map
        (fun pcm => timeAsTimecode pt + pcm.offset) =
        ((pcmChunks env.isBigEndian audio.sampling_frequency data).map
          (fun p => p.offset)).map (fun o => timeAsTimecode pt + o) := by
      rw [List.map_map]
      rfl
    rw [h1, pcmChunks_offset_map, List.map_map]
    rfl
  · intro d hd hcount
    subst hd
    exact ⟨pcmChunks_eight_data _ _ _,
      fun k => chunkList_getD _ hcount d k⟩

/-- Witness for `c6_amended_offsets` (33 Hz, three 8-bit samples). -/
theorem c6_amended_offsets_witness :
    (audioTimecodes (encodeAudioChunks envW ⟨33, 1, 8⟩ [⟨0, 1, 1⟩] 0 0) =
      (List.range (pcmChunks envW.isBigEndian 33
          (.eight [5, 4, 3])).length).map
        (fun k => timeAsTimecode 0 +
          chunkOffsetTicks 33 (k * chunkCount 33)) ∧
    (∀ d : List ℕ, WavData.eight [5, 4, 3] = .eight d →
      0 < chunkCount 33 →
      (pcmChunks envW.isBigEndian 33 (.eight [5, 4, 3])).map
          (fun p => p.data) = chunkList (chunkCount 33) d ∧
      ∀ k, (chunkList (chunkCount 33) d).getD k [] =
        (d.drop (k * chunkCount 33)).take (chunkCount 33))) :=
  c6_amended_offsets envW ⟨33, 1, 8⟩ [⟨0, 1, 1⟩] 0 0 (.eight [5, 4, 3]) rfl

/-- `C10`: when slide `frame`'s audio decoded successfully but its video
frame fails with `MismatchingDimensions`, the audio clusters `ad` are
already in the paged buffer and stay there on the error return; retrying
`step` appends them a second time. -/
theorem c10_audio_clusters_duplicated_on_retry (env : Env) (s : EncState)
    (frame : ℕ) (img : Image) (ad : List Elem)
    (hp : s.progress = .beforeFrame frame)
    (haud : encodeAudioChunks env s.audio s.slides s.passed_time frame =
      .ok ad)
    (himg : env.decodeImage ((s.slides.getD frame default).image) = .ok img)
    (hdim : (img.width, img.height) ≠ (s.video.width, s.video.height)) :
    (step env s).1.buf = s.buf ++ ad ∧
    (step env s).2 = .domain .mismatchingDimensions ∧
    (step env (step env s).1).1.buf = s.buf ++ ad ++ ad ∧
    (step env (step env s).1).2 = .domain .mismatchingDimensions := by
  have hf : ∀ pt dur, encodeFrameWithDuration env s.slides s.video pt
      frame dur = .domain .mismatchingDimensions := by
    intro pt dur
    simp only [encodeFrameWithDuration]
    rw [himg]
    simp [hdim]
  have hv := @videoLoop_first_domain env s.slides s.video frame
    ((s.slides.getD frame default).seconds) 0 s.passed_time
    .mismatchingDimensions
    (videoFuel ((s.slides.getD frame default).seconds))
    (hf s.passed_time (some (min ((s.slides.getD frame default).seconds - 0) 1)) )
    (by simp [videoFuel])
  have h1 := step_video_domain hp haud hv
  have hp' : ({ s with buf := s.buf ++ ad } : EncState).progress =
    .beforeFrame frame := hp
  have haud' : encodeAudioChunks env
      ({ s with buf := s.buf ++ ad } : EncState).audio
      ({ s with buf := s.buf ++ ad } : EncState).slides
      ({ s with buf := s.buf ++ ad } : EncState).passed_time frame =
      .ok ad := haud
  have hv' : videoLoop env
      ({ s with buf := s.buf ++ ad } : EncState).slides
      ({ s with buf := s.buf ++ ad } : EncState).video frame
      ((({ s with buf := s.buf ++ ad } : EncState).slides.getD
        frame default).seconds)
      (videoFuel ((({ s with buf := s.buf ++ ad } :
        EncState).slides.getD frame default).seconds)) 0
      ({ s with buf := s.buf ++ ad } : EncState).passed_time =
      ([], ({ s with buf := s.buf ++ ad } : EncState).passed_time,
        .domain .mismatchingDimensions) := hv
  have h2 := step_video_domain hp' haud' hv'
  rw [h1]
  refine ⟨rfl, rfl, ?_, ?_⟩
  · rw [h2]
  · rw [h2]

/-- Every raw block emitted by the per-slide video loop carries the same
decoded frame bytes, and every `BlockDuration` is at most 1000 ticks
(one second), at any fuel. -/
lemma videoLoop_blocks {env : Env} {slides : List Slide}
    {video : VideoTrack} {idx : ℕ} {seconds : ℚ} {img : Image}
    (himg : env.decodeImage ((slides.getD idx default).image) = .ok img)
    (hw : img.width = video.width) (hh : img.height = video.height) :
    ∀ fuel passed pt,
      (∀ i b, Elem.rawBlock i b ∈
          (videoLoop env slides video idx seconds fuel passed pt).1 →
        i = 0xa1 ∧ b = buildFrameBlock Encoder.TRACK_VIDEO 0 img) ∧
      (∀ n, Elem.blockDuration n ∈
          (videoLoop env slides video idx seconds fuel passed pt).1 →
        n ≤ 1000) := by
  intro fuel
  induction fuel with
  | zero =>
    intro passed pt
    refine ⟨fun i b h => ?_, fun n h => ?_⟩ <;> simp [videoLoop] at h
  | succ m ih =>
    intro passed pt
    simp only [videoLoop]
    rw [encodeFrameWithDuration_ok himg hw hh]
    dsimp only
    split
    · dsimp only
      obtain ⟨ihb, ihd⟩ := ih (passed + min (seconds - passed) 1)
        (pt + min (seconds - passed) 1)
      constructor
      · intro i b h
        rcases List.mem_append.mp h with h1 | h2
        · simp at h1
          exact h1
        · exact ihb i b h2
      · intro n h
        rcases List.mem_append.mp h with h1 | h2
        · simp at h1
          subst h1
          exact timeAsTimecode_le_1000 (min_le_right _ _)
        · exact ihd n h2
    · constructor
      · intro i b h
        simp at h
        exact h
      · intro n h
        simp at h
        subst h
        exact timeAsTimecode_le_1000 (min_le_right _ _)

/-- `C7`: under a decodable slide, the video output for slide `frame` is
a sequence of repeated-frame blocks, all carrying the identical frame
bytes and each with `BlockDuration ≤ 1000` ticks (≤ 1 s); exactly for
the last slide, one additional zero-duration repeat of the frame is
emitted, followed by the empty Cues and the Segment close. -/
theorem c7_video_block_splitting (env : Env) (s : EncState) (frame : ℕ)
    (img : Image) (ad : List Elem)
    (hp : s.progress = .beforeFrame frame)
    (haud : encodeAudioChunks env s.audio s.slides s.passed_time frame =
      .ok ad)
    (himg : env.decodeImage ((s.slides.getD frame default).image) = .ok img)
    (hw : img.width = s.video.width) (hh : img.height = s.video.height) :
    (∀ i b, Elem.rawBlock i b ∈
        (videoLoop env s.slides s.video frame
          ((s.slides.getD frame default).seconds)
          (videoFuel ((s.slides.getD frame default).seconds)) 0
          s.passed_time).1 →
      i = 0xa1 ∧ b = buildFrameBlock Encoder.TRACK_VIDEO 0 img) ∧
    (∀ n, Elem.blockDuration n ∈
        (videoLoop env s.slides s.video frame
          ((s.slides.getD frame default).seconds)
          (videoFuel ((s.slides.getD frame default).seconds)) 0
          s.passed_time).1 →
      n ≤ 1000) ∧
    (step env s).1.buf = s.buf ++ ad ++
      (videoLoop env s.slides s.video frame
        ((s.slides.getD frame default).seconds)
        (videoFuel ((s.slides.getD frame default).seconds)) 0
        s.passed_time).1 ++
      (if frame + 1 = s.slides.length then
        [.cluster .start,
         .timecode (timeAsTimecode (s.passed_time +
           (s.slides.getD frame default).seconds + 1/10)),
         .blockGroup .start,
         .rawBlock 0xa1 (buildFrameBlock Encoder.TRACK_VIDEO 0 img),
         .blockDuration 0, .blockGroup .stop, .cluster .stop] ++
        encodeClusterEnd
       else []) := by
  obtain ⟨hb, hd⟩ := videoLoop_blocks himg hw hh
    (videoFuel ((s.slides.getD frame default).seconds)) 0 s.passed_time
  refine ⟨hb, hd, ?_⟩
  rw [step_success hp haud himg hw hh]
  simp [timeAsTimecode_zero]

set_option maxRecDepth 8000 in
/-- Witness for `c7_video_block_splitting` at the one-slide show. -/
theorem c7_video_block_splitting_witness :
    ((∀ i b, Elem.rawBlock i b ∈
        (videoLoop envW sC2.slides sC2.video 0
          ((sC2.slides.getD 0 default).seconds)
          (videoFuel ((sC2.slides.getD 0 default).seconds)) 0
          sC2.passed_time).1 →
      i = 0xa1 ∧
        b = buildFrameBlock Encoder.TRACK_VIDEO 0 ⟨1, 1, [9, 8, 7, 6]⟩) ∧
    (∀ n, Elem.blockDuration n ∈
        (videoLoop envW sC2.slides sC2.video 0
          ((sC2.slides.getD 0 default).seconds)
          (videoFuel ((sC2.slides.getD 0 default).seconds)) 0
          sC2.passed_time).1 →
      n ≤ 1000) ∧
    (step envW sC2).1.buf = sC2.buf ++ adW ++
      (videoLoop envW sC2.slides sC2.video 0
        ((sC2.slides.getD 0 default).seconds)
        (videoFuel ((sC2.slides.getD 0 default).seconds)) 0
        sC2.passed_time).1 ++
      (if 0 + 1 = sC2.slides.length then
        [.cluster .start,
         .timecode (timeAsTimecode (sC2.passed_time +
           (sC2.slides.getD 0 default).seconds + 1/10)),
         .blockGroup .start,
         .rawBlock 0xa1
           (buildFrameBlock Encoder.TRACK_VIDEO 0 ⟨1, 1, [9, 8, 7, 6]⟩),
         .blockDuration 0, .blockGroup .stop, .cluster .stop] ++
        encodeClusterEnd
       else [])) :=
  c7_video_block_splitting envW sC2 0 ⟨1, 1, [9, 8, 7, 6]⟩ adW
    (by with_unfolding_all decide) (by with_unfolding_all decide)
    (by with_unfolding_all decide) (by with_unfolding_all decide)
    (by with_unfolding_all decide)

/-- A decodable WAV file yields a successful `encode_audio_chunks`. -/
lemma encodeAudioChunks_ok_exists {env : Env} {audio : AudioParams}
    {slides : List Slide} {pt : ℚ} {idx : ℕ} {d : WavData}
    (h : env.decodeAudio ((slides.getD idx default).audio) = .ok d) :
    ∃ ad, encodeAudioChunks env audio slides pt idx = .ok ad := by
  refine ⟨(pcmChunks env.isBigEndian audio.sampling_frequency d).flatMap
    (fun pcm =>
      [.cluster .start, .timecode (timeAsTimecode pt + pcm.offset),
       .blockGroup .start,
       .rawBlock 0xa1 (buildBlock Encoder.TRACK_AUDIO 0 pcm.data),
       .blockGroup .stop, .cluster .stop]), ?_⟩
  simp only [encodeAudioChunks]
  rw [h]

/-- The muxer's cursor after `k ≤ N` steps under a fully decodable show:
`Initial` for `k = 0`, otherwise `BeforeFrame (k-1)`; the static track
data never changes. -/
lemma stepN_progress (env : Env) (sh : SlideShow)
    (hgood : goodEnv env sh) :
    ∀ k, k ≤ sh.slides.length →
      (stepN env (Encoder.new sh) k).slides = sh.slides ∧
      (stepN env (Encoder.new sh) k).audio = (Encoder.new sh).audio ∧
      (stepN env (Encoder.new sh) k).video = ⟨sh.width, sh.height⟩ ∧
      (stepN env (Encoder.new sh) k).progress =
        (if k = 0 then .initial else .beforeFrame (k - 1)) := by
  intro k
  induction k with
  | zero =>
    intro _
    exact ⟨rfl, rfl, rfl, rfl⟩
  | succ n ih =>
    intro hk
    obtain ⟨hs, ha, hvv, hpr⟩ := ih (Nat.le_of_succ_le hk)
    simp only [stepN]
    by_cases hn0 : n = 0
    · subst hn0
      rw [if_pos rfl] at hpr
      rw [step_initial hpr]
      refine ⟨hs, ha, hvv, ?_⟩
      simp
    · rw [if_neg hn0] at hpr
      have hflt : n - 1 < sh.slides.length := by omega
      have hmem : sh.slides.getD (n - 1) default ∈ sh.slides := by
        rw [List.getD_eq_getElem sh.slides default hflt]
        exact List.getElem_mem hflt
      obtain ⟨⟨img, himg, hwi, hhi⟩, ⟨d, haudd⟩⟩ := hgood _ hmem
      have haudx : env.decodeAudio (((stepN env (Encoder.new sh) n).slides.getD
          (n - 1) default).audio) = .ok d := by rw [hs]; exact haudd
      obtain ⟨ad, haud⟩ := @encodeAudioChunks_ok_exists env
        (stepN env (Encoder.new sh) n).audio
        (stepN env (Encoder.new sh) n).slides
        (stepN env (Encoder.new sh) n).passed_time (n - 1) d haudx
      have himgx : env.decodeImage (((stepN env (Encoder.new sh) n).slides.getD
          (n - 1) default).image) = .ok img := by rw [hs]; exact himg
      have hwx : img.width = (stepN env (Encoder.new sh) n).video.width := by
        rw [hvv]; exact hwi
      have hhx : img.height = (stepN env (Encoder.new sh) n).video.height := by
        rw [hvv]; exact hhi
      rw [step_success hpr haud himgx hwx hhx]
      refine ⟨hs, ha, hvv, ?_⟩
      rw [hs]
      have hn1 : n - 1 + 1 = n := by omega
      rw [hn1]
      rw [if_neg (by omega)]
      simp

/-- The `k`-th `step` call under a fully decodable non-empty show
succeeds and advances the cursor: to `Done` exactly when `k = N`. -/
lemma step_at_k (env : Env) (sh : SlideShow) (hgood : goodEnv env sh)
    (hne : sh.slides ≠ []) :
    ∀ k, k ≤ sh.slides.length →
      (step env (stepN env (Encoder.new sh) k)).2 = .ok ∧
      (step env (stepN env (Encoder.new sh) k)).1.progress =
        (if k = sh.slides.length then .done else .beforeFrame k) := by
  have hlen : 0 < sh.slides.length := List.length_pos.mpr hne
  intro k hk
  obtain ⟨hs, ha, hvv, hpr⟩ := stepN_progress env sh hgood k hk
  by_cases hn0 : k = 0
  · subst hn0
    rw [if_pos rfl] at hpr
    rw [step_initial hpr]
    refine ⟨rfl, ?_⟩
    rw [if_neg (by omega)]
  · rw [if_neg hn0] at hpr
    have hflt : k - 1 < sh.slides.length := by omega
    have hmem : sh.slides.getD (k - 1) default ∈ sh.slides := by
      rw [List.getD_eq_getElem sh.slides default hflt]
      exact List.getElem_mem hflt
    obtain ⟨⟨img, himg, hwi, hhi⟩, ⟨d, haudd⟩⟩ := hgood _ hmem
    have haudx : env.decodeAudio (((stepN env (Encoder.new sh) k).slides.getD
        (k - 1) default).audio) = .ok d := by rw [hs]; exact haudd
    obtain ⟨ad, haud⟩ := @encodeAudioChunks_ok_exists env
      (stepN env (Encoder.new sh) k).audio
      (stepN env (Encoder.new sh) k).slides
      (stepN env (Encoder.new sh) k).passed_time (k - 1) d haudx
    have himgx : env.decodeImage (((stepN env (Encoder.new sh) k).slides.getD
        (k - 1) default).image) = .ok img := by rw [hs]; exact himg
    have hwx : img.width = (stepN env (Encoder.new sh) k).video.width := by
      rw [hvv]; exact hwi
    have hhx : img.height = (stepN env (Encoder.new sh) k).video.height := by
      rw [hvv]; exact hhi
    rw [step_success hpr haud himgx hwx hhx]
    refine ⟨rfl, ?_⟩
    rw [hs]
    have hn1 : k - 1 + 1 = k := by omega
    rw [hn1]

/-- `C1`: for a non-empty, fully decodable `SlideShow` with `N` slides,
all of the first `N + 1` `step()` calls are productive (return `Ok`),
`done()` is false after every `k ≤ N` of them, and true after exactly
`N + 1`. -/
theorem c1_done_after_n_plus_1 (env : Env) (sh : SlideShow)
    (hne : sh.slides ≠ []) (hgood : goodEnv env sh) :
    (∀ k, k ≤ sh.slides.length →
      (stepN env (Encoder.new sh) k).done = false) ∧
    (stepN env (Encoder.new sh) (sh.slides.length + 1)).done = true ∧
    (∀ k, k ≤ sh.slides.length →
      (step env (stepN env (Encoder.new sh) k)).2 = .ok) := by
  refine ⟨?_, ?_, ?_⟩
  · intro k hk
    obtain ⟨_, _, _, hpr⟩ := stepN_progress env sh hgood k hk
    by_cases h0 : k = 0
    · subst h0
      rw [if_pos rfl] at hpr
      simp [EncState.done, hpr]
    · rw [if_neg h0] at hpr
      simp [EncState.done, hpr]
  · obtain ⟨_, hpr⟩ := step_at_k env sh hgood hne sh.slides.length le_rfl
    rw [if_pos rfl] at hpr
    simp only [stepN]
    simp [EncState.done, hpr]
  · intro k hk
    exact (step_at_k env sh hgood hne k hk).1

/-- Witness for `c1_done_after_n_plus_1` at the one-slide show `shW`. -/
theorem c1_done_after_n_plus_1_witness :
    (∀ k, k ≤ shW.slides.length →
      (stepN envW (Encoder.new shW) k).done = false) ∧
    (stepN envW (Encoder.new shW) (shW.slides.length + 1)).done = true ∧
    (∀ k, k ≤ shW.slides.length →
      (step envW (stepN envW (Encoder.new shW) k)).2 = .ok) :=
  c1_done_after_n_plus_1 envW shW (by decide)
    (fun sl _ =>
      ⟨⟨⟨1, 1, [9, 8, 7, 6]⟩, rfl, rfl, rfl⟩, ⟨.eight [5, 4, 3], rfl⟩⟩)

set_option maxRecDepth 8000 in
/-- Witness for `c10_audio_clusters_duplicated_on_retry`. -/
theorem c10_audio_clusters_duplicated_on_retry_witness :
    (step envC10 sC2).1.buf = sC2.buf ++ adW ∧
    (step envC10 sC2).2 = .domain .mismatchingDimensions ∧
    (step envC10 (step envC10 sC2).1).1.buf = sC2.buf ++ adW ++ adW ∧
    (step envC10 (step envC10 sC2).1).2 =
      .domain .mismatchingDimensions :=
  c10_audio_clusters_duplicated_on_retry envC10 sC2 0
    ⟨2, 2, List.replicate 16 0⟩ adW (by with_unfolding_all decide)
    (by with_unfolding_all decide) (by with_unfolding_all decide)
    (by with_unfolding_all decide)

end VidFromPdf
